import Mathlib

/-!
Shallow embedding of the training-scheduler repository
(files: training_scheduler/directory_adapters.py, training_scheduler/client.py).

Modelling conventions:
- A Python dict keyed by strings is an association list (`List (String × _)`)
  manipulated in Python dict order (overwrite in place, insert appends).
- A directory of the local filesystem is an association list from file name to
  file contents; every entry models a regular file.
- Python exceptions are explicit: operations whose exceptions escape to the
  caller either return `Except`, or return the state at the raise point
  together with an `Option` error (matching the fact that a raising Python
  method leaves the object in its state at the raise point).
- `time()` values are integers supplied from outside; `yaml.safe_load`
  together with the yamlable codec registry is an external collaborator and is
  a parameter (`decode`) whose outcome datatype distinguishes the exception
  classes that matter to the code (`TypeError` is caught by `get_config`,
  other parse exceptions are not).
-/

/-- Lookup in an association list, first match wins (Python `d[k]` / `k in d`). -/
def dictGet {α : Type} : List (String × α) → String → Option α
  | [], _ => none
  | p :: rest, k => if p.1 = k then some p.2 else dictGet rest k

/-- Python `d[k] = v`: overwrite in place if the key is present, append otherwise. -/
def dictSet {α : Type} : List (String × α) → String → α → List (String × α)
  | [], k, v => [(k, v)]
  | p :: rest, k, v => if p.1 = k then (k, v) :: rest else p :: dictSet rest k v

/-- Remove the entry with the given key (used for a file leaving a directory). -/
def dictRemove {α : Type} : List (String × α) → String → List (String × α)
  | [], _ => []
  | p :: rest, k => if p.1 = k then rest else p :: dictRemove rest k

/-- Well-formedness of a dict: its keys are pairwise distinct (Python dicts
and real directories always satisfy this). -/
def WFDict {α : Type} (l : List (String × α)) : Prop := (l.map Prod.fst).Nodup

theorem dictGet_set_self {α : Type} (l : List (String × α)) (k : String) (v : α) :
    dictGet (dictSet l k v) k = some v := by
  induction l with
  | nil => simp [dictGet, dictSet]
  | cons p rest ih =>
      by_cases h : p.1 = k <;> simp [dictGet, dictSet, h, ih]

theorem dictGet_set_ne {α : Type} (l : List (String × α)) (k k' : String) (v : α)
    (h : k ≠ k') : dictGet (dictSet l k v) k' = dictGet l k' := by
  induction l with
  | nil => simp [dictGet, dictSet, h]
  | cons p rest ih =>
      by_cases hp : p.1 = k
      · have h2 : ¬ p.1 = k' := fun he => h (hp.symm.trans he)
        simp [dictSet, hp, dictGet, h, h2]
      · by_cases hpk : p.1 = k'
        · have h2 : ¬ k' = k := fun he => h he.symm
          simp [dictSet, hp, dictGet, hpk, h2]
        · simp [dictSet, hp, dictGet, hpk, ih]

theorem dictGet_mem {α : Type} {l : List (String × α)} {k : String} {v : α}
    (h : dictGet l k = some v) : (k, v) ∈ l := by
  induction l with
  | nil => simp [dictGet] at h
  | cons p rest ih =>
      by_cases hp : p.1 = k
      · simp [dictGet, hp] at h
        subst hp; cases p
        simp_all
      · simp [dictGet, hp] at h
        exact List.mem_cons_of_mem _ (ih h)

theorem mem_dictGet {α : Type} {l : List (String × α)} {k : String} {v : α}
    (hwf : WFDict l) (h : (k, v) ∈ l) : dictGet l k = some v := by
  induction l with
  | nil => simp at h
  | cons p rest ih =>
      rw [WFDict, List.map, List.nodup_cons] at hwf
      obtain ⟨hnotin, hrest⟩ := hwf
      rcases List.mem_cons.mp h with h1 | h1
      · rw [← h1]; simp [dictGet]
      · have hk : p.1 ≠ k := by
          intro he
          apply hnotin
          rw [he]
          exact List.mem_map.mpr ⟨(k, v), h1, rfl⟩
        simp [dictGet, hk, ih hrest h1]

theorem dictSet_keys {α : Type} (l : List (String × α)) (k : String) (v : α) :
    ∀ b, b ∈ (dictSet l k v).map Prod.fst → b ∈ l.map Prod.fst ∨ b = k := by
  induction l with
  | nil =>
      intro b hb
      simp [dictSet] at hb
      simp [hb]
  | cons p rest ih =>
      intro b hb
      by_cases hp : p.1 = k
      · simp only [dictSet, if_pos hp, List.map, List.mem_cons] at hb
        rcases hb with hb | hb
        · right; simpa using hb
        · left; simp [hb]
      · simp only [dictSet, if_neg hp, List.map, List.mem_cons] at hb
        rcases hb with hb | hb
        · left; simp [hb]
        · rcases ih b hb with h2 | h2
          · left; simp [h2]
          · right; exact h2

theorem wf_dictSet {α : Type} {l : List (String × α)} (k : String) (v : α)
    (hwf : WFDict l) : WFDict (dictSet l k v) := by
  induction l with
  | nil => simp [WFDict, dictSet]
  | cons p rest ih =>
      rw [WFDict, List.map, List.nodup_cons] at hwf
      obtain ⟨hnotin, hrest⟩ := hwf
      by_cases hp : p.1 = k
      · rw [WFDict]
        simp only [dictSet, if_pos hp, List.map]
        exact List.nodup_cons.mpr ⟨hp ▸ hnotin, hrest⟩
      · rw [WFDict]
        simp only [dictSet, if_neg hp, List.map]
        refine List.nodup_cons.mpr ⟨?_, ih hrest⟩
        intro hmem
        rcases dictSet_keys rest k v p.1 hmem with h2 | h2
        · exact hnotin h2
        · exact hp h2

/-- The three lifecycle states of a config (enum `ConfigState` in
directory_adapters.py). -/
inductive ConfigState where
  | planned
  | active
  | completed
deriving DecidableEq, Repr

/-- The module-level tuple `_allowed_state_changes`. -/
def _allowed_state_changes : List (ConfigState × ConfigState) :=
  [(ConfigState.planned, ConfigState.active),
   (ConfigState.active, ConfigState.completed)]

/-- The three state directories managed by `LocalDirectoryAdapter` (created at
construction time); each is a map from file name to file contents. -/
structure FS where
  planned : List (String × String)
  active : List (String × String)
  completed : List (String × String)
deriving DecidableEq, Repr

/-- The directory backing a state (`self.directories[state]`). -/
def FS.get (fs : FS) : ConfigState → List (String × String)
  | ConfigState.planned => fs.planned
  | ConfigState.active => fs.active
  | ConfigState.completed => fs.completed

/-- Replace the directory backing a state. -/
def FS.set (fs : FS) : ConfigState → List (String × String) → FS
  | ConfigState.planned, d => { fs with planned := d }
  | ConfigState.active, d => { fs with active := d }
  | ConfigState.completed, d => { fs with completed := d }

/-- The observable state of a `LocalDirectoryAdapter`: the in-memory dict
`self.identifier_states` plus the backing directories. -/
structure AdapterState where
  identifier_states : List (String × ConfigState)
  fs : FS
deriving DecidableEq, Repr

/-- The Python exceptions that the adapter code can raise. -/
inductive AdapterError where
  | keyError (id : String)
  | invalidTransition (old next : ConfigState)
  | duplicateIdentifier (id : String)
  | fileNotFound (id : String)
  | decodeException (id : String)
deriving DecidableEq, Repr

/-- Embeds `LocalDirectoryAdapter._move_to_state` together with the helper
`_move_to_dir`: `os.rename` of the backing file from the directory of
`old` to the directory of `new`; the rename raises `FileNotFoundError` if the
source file is absent and silently replaces an existing target entry. -/
def _move_to_state (id : String) (old new : ConfigState) (fs : FS) :
    Except AdapterError FS :=
  match dictGet (fs.get old) id with
  | none => Except.error (AdapterError.fileNotFound id)
  | some contents =>
    let fs1 := fs.set old (dictRemove (fs.get old) id)
    Except.ok (fs1.set new (dictSet (fs1.get new) id contents))

/-- Embeds `DirectoryAdapter.change_state`, parametrised over the concrete
`_move_to_state` of the subclass. Returns the adapter state at exit together
with the exception, if one was raised; an exception leaves the state exactly
as it was at the raise point. -/
def change_state (move : String → ConfigState → ConfigState → FS → Except AdapterError FS)
    (st : AdapterState) (id : String) (next : ConfigState) (validate_change : Bool) :
    AdapterState × Option AdapterError :=
  match dictGet st.identifier_states id with
  | none => (st, some (AdapterError.keyError id))
  | some old =>
    if validate_change = true ∧ (old, next) ∉ _allowed_state_changes then
      (st, some (AdapterError.invalidTransition old next))
    else
      match move id old next st.fs with
      | Except.error e => (st, some e)
      | Except.ok fs' =>
        ({ identifier_states := dictSet st.identifier_states id next, fs := fs' }, none)

/-- Embeds `DirectoryAdapter._add_identifier`. -/
def _add_identifier (t : List (String × ConfigState)) (id : String) (s : ConfigState) :
    Except AdapterError (List (String × ConfigState)) :=
  if (dictGet t id).isNone then Except.ok (dictSet t id s)
  else Except.error (AdapterError.duplicateIdentifier id)

/-- The file-name filter of `poll_directory` (`de.path.endswith(".yaml")`),
stated on the character lists underlying the strings. -/
def isYamlFile (name : String) : Bool := ".yaml".data.isSuffixOf name.data

/-- The scandir loop of `LocalDirectoryAdapter.poll_directory`: for each file
with the recognized extension whose name is not yet tracked, register it via
`_add_identifier` (every entry of the model directory is a regular file). -/
def registerScan (t : List (String × ConfigState)) :
    List (String × String) → ConfigState → Except AdapterError (List (String × ConfigState))
  | [], _ => Except.ok t
  | f :: rest, s =>
    if isYamlFile f.1 then
      if (dictGet t f.1).isNone then
        match _add_identifier t f.1 s with
        | Except.error e => Except.error e
        | Except.ok t' => registerScan t' rest s
      else registerScan t rest s
    else registerScan t rest s

/-- Embeds `LocalDirectoryAdapter.poll_directory`: register newly seen files of
the directory backing `state`, then return the identifiers whose tracked state
equals `state`, in dict insertion order. -/
def poll_directory (st : AdapterState) (state : ConfigState) :
    Except AdapterError (AdapterState × List String) :=
  match registerScan st.identifier_states (st.fs.get state) state with
  | Except.error e => Except.error e
  | Except.ok t' =>
    Except.ok ({ st with identifier_states := t' },
               (t'.filter (fun p => p.2 = state)).map Prod.fst)

/-- Embeds `DirectoryAdapter.poll`. -/
def pollPlanned (st : AdapterState) : Except AdapterError (AdapterState × List String) :=
  poll_directory st ConfigState.planned

/-- A decoded config value; the engine dispatches purely on the runtime type of
the decoded object, modelled as the string `tag`. -/
structure ConfigVal where
  tag : String
deriving DecidableEq, Repr

/-- Outcome of the external decode step (`yaml.safe_load` plus the yamlable
codec registry) applied to the contents of a job file:
a decoded value, the `None` document, a raised `TypeError` (the only exception
class `get_config` catches), or any other raised exception (for example a
`yaml.scanner.ScannerError` on a malformed document). -/
inductive DecodeOutcome where
  | value (c : ConfigVal)
  | null
  | typeError
  | parseError
deriving DecidableEq, Repr

/-- Observable events of the engine: the callback notifications of
`SchedulingClientCallback` plus the diagnostic print inside
`LocalDirectoryAdapter.get_config`. -/
inductive Event where
  | configLoaded (id : String)
  | failedToWriteResult (id : String)
  | failedToRunConfig (id : String)
  | unregisteredConfig (id : String)
  | noConfigsFound
  | waitingForNextPoll (delta : Int)
  | timeout
  | printedConfigIssue (id : String)
deriving DecidableEq, Repr

/-- Embeds `LocalDirectoryAdapter.get_config`: open the file in the planned
directory (raising `FileNotFoundError` if absent), run the decode step, catch
only `TypeError` (printing a diagnostic and falling through to return `None`);
any other decode exception propagates to the caller. -/
def get_config (decode : String → DecodeOutcome) (st : AdapterState) (id : String) :
    List Event × Except AdapterError (Option ConfigVal) :=
  match dictGet (st.fs.get ConfigState.planned) id with
  | none => ([], Except.error (AdapterError.fileNotFound id))
  | some contents =>
    match decode contents with
    | DecodeOutcome.value c => ([], Except.ok (some c))
    | DecodeOutcome.null => ([], Except.ok none)
    | DecodeOutcome.typeError => ([Event.printedConfigIssue id], Except.ok none)
    | DecodeOutcome.parseError => ([], Except.error (AdapterError.decodeException id))

/-- Embeds `LocalDirectoryAdapter.write_output`: open
`completed/<identifier>.out` in append mode and write `output`. -/
def write_output (st : AdapterState) (id : String) (output : String) : AdapterState :=
  let name := id ++ ".out"
  let dir := st.fs.get ConfigState.completed
  let newContents :=
    match dictGet dir name with
    | some old => old ++ output
    | none => output
  { st with fs := st.fs.set ConfigState.completed (dictSet dir name newContents) }

/-- Behaviour of one invocation of a registered consumer: it returns a result
(`None` or a value) or raises an exception. -/
inductive HandlerOutcome where
  | ok (result : Option String)
  | raises
deriving DecidableEq, Repr

/-- The external collaborators of `SchedulingClient.run`: the decode step, the
consumer registry `self.config_consumers` (keyed by the runtime type tag) with
the behaviour of each consumer, and `json.dumps` (which can raise on a
non-serializable result). -/
structure Env where
  decode : String → DecodeOutcome
  config_consumers : List (String × (ConfigVal → String → HandlerOutcome))
  jsonDumps : String → Except Unit String

/-- Exceptions that can escape the body of the run loop. -/
inductive EngineError where
  | adapter (e : AdapterError)
  | handlerException
  | writeException
deriving DecidableEq, Repr

/-- The two nested try blocks of `SchedulingClient.run`: invoke the consumer;
on success serialize and write a non-None result, reporting a write failure via
the failed-to-write hook; a consumer exception is reported via the
failed-to-run hook. With `debug` a re-raised write exception is first caught by
the outer `except` (firing the failed-to-run hook as well) and then re-raised. -/
def runConsumerAndWrite (env : Env) (debug : Bool) (st : AdapterState) (id : String)
    (c : ConfigVal) (handler : ConfigVal → String → HandlerOutcome) :
    List Event × AdapterState × Option EngineError :=
  match handler c id with
  | HandlerOutcome.raises =>
    if debug then ([Event.failedToRunConfig id], st, some EngineError.handlerException)
    else ([Event.failedToRunConfig id], st, none)
  | HandlerOutcome.ok none => ([], st, none)
  | HandlerOutcome.ok (some r) =>
    match env.jsonDumps r with
    | Except.error _ =>
      if debug then
        ([Event.failedToWriteResult id, Event.failedToRunConfig id], st,
         some EngineError.writeException)
      else ([Event.failedToWriteResult id], st, none)
    | Except.ok s => ([], write_output st id s, none)

/-- The per-identifier body of the run loop of `SchedulingClient.run`:
read the config, fire the config-loaded hook, and either dispatch (activate,
run the consumer, write output, complete) or fire the unregistered-config
hook. Returns the events fired, the adapter state at exit and the exception
escaping the loop body, if any. -/
def processIdentifier (env : Env) (debug : Bool) (st : AdapterState) (id : String) :
    List Event × AdapterState × Option EngineError :=
  match get_config env.decode st id with
  | (ev, Except.error e) => (ev, st, some (EngineError.adapter e))
  | (ev, Except.ok config) =>
    let ev := ev ++ [Event.configLoaded id]
    match config with
    | none => (ev ++ [Event.unregisteredConfig id], st, none)
    | some c =>
      match dictGet env.config_consumers c.tag with
      | none => (ev ++ [Event.unregisteredConfig id], st, none)
      | some handler =>
        match change_state _move_to_state st id ConfigState.active true with
        | (st1, some e) => (ev, st1, some (EngineError.adapter e))
        | (st1, none) =>
          match runConsumerAndWrite env debug st1 id c handler with
          | (ev2, st2, some e) => (ev ++ ev2, st2, some e)
          | (ev2, st2, none) =>
            match change_state _move_to_state st2 id ConfigState.completed true with
            | (st3, some e) => (ev ++ ev2, st3, some (EngineError.adapter e))
            | (st3, none) => (ev ++ ev2, st3, none)

/-- The `for identifier in identifiers` loop of `SchedulingClient.run`; an
exception escaping one body aborts the rest of the loop. -/
def processList (env : Env) (debug : Bool) :
    AdapterState → List String → List Event × AdapterState × Option EngineError
  | st, [] => ([], st, none)
  | st, id :: rest =>
    match processIdentifier env debug st id with
    | (ev, st1, some e) => (ev, st1, some e)
    | (ev, st1, none) =>
      match processList env debug st1 rest with
      | (ev2, st2, r) => (ev ++ ev2, st2, r)

/-- The wall-clock readings one loop iteration makes: at the
`time_of_last_poll` assignment, at the timeout check, and at the pacing
computation, in that order. -/
structure IterInput where
  tPoll : Int
  tCheck : Int
  tPace : Int
deriving DecidableEq, Repr, Inhabited

/-- How one loop iteration ends: fall through to the next iteration (recording
the slept duration, if any), return through the timeout branch, or propagate an
exception. -/
inductive IterResult where
  | continued (slept : Option Int)
  | timedOut
  | raised (e : EngineError)
deriving DecidableEq, Repr

/-- Everything one loop iteration produces. -/
structure IterOutcome where
  events : List Event
  st : AdapterState
  lastNonempty : Int
  polled : List String
  result : IterResult
deriving DecidableEq, Repr

/-- The Python condition `self.timeout and time() - time_of_last_nonempty_poll
> self.timeout`: a timeout of `None` or `0` is falsy and disables the check. -/
def timeoutFires (timeout : Option Int) (lastNonempty tCheck : Int) : Bool :=
  match timeout with
  | none => false
  | some T => if T = 0 then false else decide (tCheck - lastNonempty > T)

/-- The tail of a loop iteration: the timeout check followed by the pacing
step (`time_delta = min_polling_interval - (time() - time_of_last_poll)`). -/
def checkEnd (timeout : Option Int) (minInterval : Int) (lastNonempty : Int)
    (t : IterInput) : List Event × IterResult :=
  if timeoutFires timeout lastNonempty t.tCheck then
    ([Event.timeout], IterResult.timedOut)
  else
    let delta := minInterval - (t.tPace - t.tPoll)
    if delta > 0 then
      ([Event.waitingForNextPoll delta], IterResult.continued (some delta))
    else ([], IterResult.continued none)

/-- One iteration of the `while True` loop of `SchedulingClient.run`. -/
def runIteration (env : Env) (debug : Bool) (timeout : Option Int) (minInterval : Int)
    (st : AdapterState) (lastNonempty : Int) (t : IterInput) : IterOutcome :=
  match pollPlanned st with
  | Except.error e => ⟨[], st, lastNonempty, [], IterResult.raised (EngineError.adapter e)⟩
  | Except.ok (st1, ids) =>
    if ids.isEmpty then
      let ce := checkEnd timeout minInterval lastNonempty t
      ⟨Event.noConfigsFound :: ce.1, st1, lastNonempty, ids, ce.2⟩
    else
      let pr := processList env debug st1 ids
      match pr.2.2 with
      | some e => ⟨pr.1, pr.2.1, t.tPoll, ids, IterResult.raised e⟩
      | none =>
        let ce := checkEnd timeout minInterval t.tPoll t
        ⟨pr.1 ++ ce.1, pr.2.1, t.tPoll, ids, ce.2⟩

/-- Result of a whole run: normal return through the timeout branch, an
exception propagating out, or the supplied schedule of iterations exhausted
with the loop still going. -/
inductive RunResult where
  | timedOut (events : List Event) (st : AdapterState)
  | raised (events : List Event) (st : AdapterState) (e : EngineError)
  | stillRunning (events : List Event) (st : AdapterState) (lastNonempty : Int)
deriving DecidableEq, Repr

/-- The `while True` loop of `SchedulingClient.run`, iterated over a finite
schedule of wall-clock readings (one `IterInput` per iteration). -/
def runLoop (env : Env) (debug : Bool) (timeout : Option Int) (minInterval : Int) :
    AdapterState → Int → List IterInput → RunResult
  | st, lastNonempty, [] => RunResult.stillRunning [] st lastNonempty
  | st, lastNonempty, t :: rest =>
    let o := runIteration env debug timeout minInterval st lastNonempty t
    match o.result with
    | IterResult.raised e => RunResult.raised o.events o.st e
    | IterResult.timedOut => RunResult.timedOut o.events o.st
    | IterResult.continued _ =>
      match runLoop env debug timeout minInterval o.st o.lastNonempty rest with
      | RunResult.timedOut ev st' => RunResult.timedOut (o.events ++ ev) st'
      | RunResult.raised ev st' e => RunResult.raised (o.events ++ ev) st' e
      | RunResult.stillRunning ev st' l => RunResult.stillRunning (o.events ++ ev) st' l

/-- The body of the `for identifier in active_configs` loop of
`SchedulingClient._resume_active_configs`: force each identifier back to
planned with `validate_change=False`. -/
def resumeLoop : AdapterState → List String → AdapterState × Option AdapterError
  | st, [] => (st, none)
  | st, id :: rest =>
    match change_state _move_to_state st id ConfigState.planned false with
    | (st1, none) => resumeLoop st1 rest
    | (st1, some e) => (st1, some e)

/-- Embeds `SchedulingClient._resume_active_configs`: poll the active
directory, then move every identifier found there back to planned, bypassing
transition validation. -/
def _resume_active_configs (st : AdapterState) : AdapterState × Option AdapterError :=
  match poll_directory st ConfigState.active with
  | Except.error e => (st, some e)
  | Except.ok (st1, ids) => resumeLoop st1 ids

/-- Embeds `SchedulingClient.run`: the optional recovery step, then the main
loop started with `time_of_last_nonempty_poll = 0`. -/
def run (env : Env) (debug resume_active_configs : Bool) (timeout : Option Int)
    (minInterval : Int) (st : AdapterState) (times : List IterInput) : RunResult :=
  match (if resume_active_configs then _resume_active_configs st else (st, none)) with
  | (st1, some e) => RunResult.raised [] st1 (EngineError.adapter e)
  | (st1, none) => runLoop env debug timeout minInterval st1 0 times

/-- C1: with `validate_change=true`, `change_state` raises an
invalid-transition error for every tracked identifier whenever the pair of
current and target state is outside the allowed set, leaving the adapter state
(table and directories) untouched; a successful transition performs the
physical move and updates the table to match it, and a move failure leaves
table and directories exactly as they were, so the two never diverge. Stated
for an arbitrary `_move_to_state` implementation of a subclass. -/
theorem c1_change_state_validates_and_is_atomic :
    (∀ (move : String → ConfigState → ConfigState → FS → Except AdapterError FS)
        (st : AdapterState) (id : String) (next old : ConfigState),
        dictGet st.identifier_states id = some old →
        (old, next) ∉ _allowed_state_changes →
        change_state move st id next true =
          (st, some (AdapterError.invalidTransition old next))) ∧
    (∀ (move : String → ConfigState → ConfigState → FS → Except AdapterError FS)
        (st : AdapterState) (id : String) (next old : ConfigState) (e : AdapterError),
        dictGet st.identifier_states id = some old →
        (old, next) ∈ _allowed_state_changes →
        move id old next st.fs = Except.error e →
        change_state move st id next true = (st, some e)) ∧
    (∀ (move : String → ConfigState → ConfigState → FS → Except AdapterError FS)
        (st : AdapterState) (id : String) (next old : ConfigState) (fs' : FS),
        dictGet st.identifier_states id = some old →
        (old, next) ∈ _allowed_state_changes →
        move id old next st.fs = Except.ok fs' →
        change_state move st id next true =
          ({ identifier_states := dictSet st.identifier_states id next, fs := fs' }, none)) := by
  refine ⟨?_, ?_, ?_⟩
  · intro move st id next old h1 h2
    simp [change_state, h1, h2]
  · intro move st id next old e h1 h2 hmove
    simp [change_state, h1, h2, hmove]
  · intro move st id next old fs' h1 h2 hmove
    simp [change_state, h1, h2, hmove]

/-- A one-job adapter state used to instantiate theorems with hypotheses. -/
def c1State : AdapterState :=
  { identifier_states := [("a.yaml", ConfigState.planned)],
    fs := { planned := [("a.yaml", "body")], active := [], completed := [] } }

/-- A state whose table tracks a job whose backing file is gone. -/
def c1StateMissing : AdapterState :=
  { identifier_states := [("a.yaml", ConfigState.planned)],
    fs := { planned := [], active := [], completed := [] } }

/-- Witness for C1 at concrete inputs: a skipped transition
(planned to completed), a failed move (file gone), a successful transition. -/
theorem c1_witness :
    change_state _move_to_state c1State "a.yaml" ConfigState.completed true =
      (c1State, some (AdapterError.invalidTransition ConfigState.planned ConfigState.completed)) ∧
    change_state _move_to_state c1StateMissing "a.yaml" ConfigState.active true =
      (c1StateMissing, some (AdapterError.fileNotFound "a.yaml")) ∧
    change_state _move_to_state c1State "a.yaml" ConfigState.active true =
      ({ identifier_states := dictSet c1State.identifier_states "a.yaml" ConfigState.active,
         fs := { planned := [], active := [("a.yaml", "body")], completed := [] } }, none) :=
  ⟨c1_change_state_validates_and_is_atomic.1 _move_to_state c1State "a.yaml"
      ConfigState.completed ConfigState.planned rfl (by decide),
   c1_change_state_validates_and_is_atomic.2.1 _move_to_state c1StateMissing "a.yaml"
      ConfigState.active ConfigState.planned (AdapterError.fileNotFound "a.yaml")
      rfl (by decide) rfl,
   c1_change_state_validates_and_is_atomic.2.2 _move_to_state c1State "a.yaml"
      ConfigState.active ConfigState.planned
      { planned := [], active := [("a.yaml", "body")], completed := [] }
      rfl (by decide) rfl⟩

/-- C2: when the registered consumer of a planned job raises: with
`debug=false` the exception is caught, the failed-to-run hook fires, the loop
body returns normally (no escaping exception) and the job still ends tracked
as completed with its file in the completed directory; with `debug=true` the
exception escapes the loop body, the completion transition does not happen,
and the job stays tracked as active with its file in the active directory;
moreover an exception escaping an iteration propagates out of `run` itself
as a raised result. -/
theorem c2_handler_exception_debug_semantics
    (env : Env) (st : AdapterState) (id contents : String) (c : ConfigVal)
    (handler : ConfigVal → String → HandlerOutcome)
    (hplan : dictGet st.identifier_states id = some ConfigState.planned)
    (hfile : dictGet st.fs.planned id = some contents)
    (hdec : env.decode contents = DecodeOutcome.value c)
    (hcons : dictGet env.config_consumers c.tag = some handler)
    (hrun : handler c id = HandlerOutcome.raises) :
    (processIdentifier env false st id).1 =
      [Event.configLoaded id, Event.failedToRunConfig id] ∧
    (processIdentifier env false st id).2.2 = none ∧
    dictGet (processIdentifier env false st id).2.1.identifier_states id =
      some ConfigState.completed ∧
    dictGet (processIdentifier env false st id).2.1.fs.completed id = some contents ∧
    (processIdentifier env true st id).1 =
      [Event.configLoaded id, Event.failedToRunConfig id] ∧
    (processIdentifier env true st id).2.2 = some EngineError.handlerException ∧
    dictGet (processIdentifier env true st id).2.1.identifier_states id =
      some ConfigState.active ∧
    dictGet (processIdentifier env true st id).2.1.fs.active id = some contents ∧
    (∀ (env2 : Env) (timeout : Option Int) (mpi : Int) (st0 : AdapterState)
        (t : IterInput) (rest : List IterInput) (e : EngineError),
      (runIteration env2 true timeout mpi st0 0 t).result = IterResult.raised e →
      run env2 true false timeout mpi st0 (t :: rest) =
        RunResult.raised (runIteration env2 true timeout mpi st0 0 t).events
          (runIteration env2 true timeout mpi st0 0 t).st e) := by
  have hmem1 : (ConfigState.planned, ConfigState.active) ∈ _allowed_state_changes := by decide
  have hmem2 : (ConfigState.active, ConfigState.completed) ∈ _allowed_state_changes := by decide
  refine ⟨?_, ?_, ?_, ?_, ?_, ?_, ?_, ?_, ?_⟩ <;>
    try simp [processIdentifier, get_config, FS.get, FS.set, hfile, hdec, hcons,
          change_state, hplan, hmem1, hmem2, _move_to_state, runConsumerAndWrite,
          hrun, dictGet_set_self]
  intro env2 timeout mpi st0 t rest e hr
  simp [run, runLoop, hr]

/-- A concrete environment whose single consumer always raises. -/
def c2Env : Env :=
  { decode := fun s => if s = "body" then DecodeOutcome.value ⟨"T"⟩ else DecodeOutcome.null,
    config_consumers := [("T", fun _ _ => HandlerOutcome.raises)],
    jsonDumps := fun s => Except.ok s }

/-- A one-job adapter state for the C2 witness. -/
def c2State : AdapterState :=
  { identifier_states := [("a.yaml", ConfigState.planned)],
    fs := { planned := [("a.yaml", "body")], active := [], completed := [] } }

/-- Witness for C2 at a concrete raising consumer. -/
theorem c2_witness :
    (processIdentifier c2Env false c2State "a.yaml").1 =
      [Event.configLoaded "a.yaml", Event.failedToRunConfig "a.yaml"] ∧
    (processIdentifier c2Env false c2State "a.yaml").2.2 = none ∧
    dictGet (processIdentifier c2Env false c2State "a.yaml").2.1.identifier_states "a.yaml" =
      some ConfigState.completed ∧
    dictGet (processIdentifier c2Env false c2State "a.yaml").2.1.fs.completed "a.yaml" =
      some "body" ∧
    (processIdentifier c2Env true c2State "a.yaml").1 =
      [Event.configLoaded "a.yaml", Event.failedToRunConfig "a.yaml"] ∧
    (processIdentifier c2Env true c2State "a.yaml").2.2 = some EngineError.handlerException ∧
    dictGet (processIdentifier c2Env true c2State "a.yaml").2.1.identifier_states "a.yaml" =
      some ConfigState.active ∧
    dictGet (processIdentifier c2Env true c2State "a.yaml").2.1.fs.active "a.yaml" =
      some "body" ∧
    run c2Env true false none 10 c2State [⟨0, 0, 0⟩] =
      RunResult.raised (runIteration c2Env true none 10 c2State 0 ⟨0, 0, 0⟩).events
        (runIteration c2Env true none 10 c2State 0 ⟨0, 0, 0⟩).st
        EngineError.handlerException := by
  have T := c2_handler_exception_debug_semantics c2Env c2State "a.yaml" "body" ⟨"T"⟩
    (fun _ _ => HandlerOutcome.raises) rfl rfl rfl rfl rfl
  exact ⟨T.1, T.2.1, T.2.2.1, T.2.2.2.1, T.2.2.2.2.1, T.2.2.2.2.2.1, T.2.2.2.2.2.2.1,
    T.2.2.2.2.2.2.2.1,
    T.2.2.2.2.2.2.2.2 c2Env none 10 c2State ⟨0, 0, 0⟩ [] EngineError.handlerException rfl⟩

theorem ne_append_out (s : String) : s ≠ s ++ ".out" := by
  intro h
  have h2 := congrArg String.length h
  simp [String.length_append] at h2
  exact absurd h2 (by decide)

/-- C7: for a dispatched job whose consumer returns a non-None result that
serializes successfully, the loop appends the serialized result to the sidecar
file named `identifier ++ ".out"` in the completed directory (creating it if
absent, appending to its previous contents otherwise); when the consumer
returns None, the sidecar entry of that job is left exactly as it was. -/
theorem c7_output_sidecar
    (env : Env) (debug : Bool) (st : AdapterState) (id contents : String) (c : ConfigVal)
    (handler : ConfigVal → String → HandlerOutcome)
    (hplan : dictGet st.identifier_states id = some ConfigState.planned)
    (hfile : dictGet st.fs.planned id = some contents)
    (hdec : env.decode contents = DecodeOutcome.value c)
    (hcons : dictGet env.config_consumers c.tag = some handler) :
    (∀ r s, handler c id = HandlerOutcome.ok (some r) → env.jsonDumps r = Except.ok s →
      dictGet st.fs.completed (id ++ ".out") = none →
      (processIdentifier env debug st id).2.2 = none ∧
      dictGet (processIdentifier env debug st id).2.1.fs.completed (id ++ ".out") = some s) ∧
    (∀ r s old, handler c id = HandlerOutcome.ok (some r) → env.jsonDumps r = Except.ok s →
      dictGet st.fs.completed (id ++ ".out") = some old →
      (processIdentifier env debug st id).2.2 = none ∧
      dictGet (processIdentifier env debug st id).2.1.fs.completed (id ++ ".out") =
        some (old ++ s)) ∧
    (handler c id = HandlerOutcome.ok none →
      (processIdentifier env debug st id).2.2 = none ∧
      dictGet (processIdentifier env debug st id).2.1.fs.completed (id ++ ".out") =
        dictGet st.fs.completed (id ++ ".out")) := by
  have hmem1 : (ConfigState.planned, ConfigState.active) ∈ _allowed_state_changes := by decide
  have hmem2 : (ConfigState.active, ConfigState.completed) ∈ _allowed_state_changes := by decide
  have hne : id ≠ id ++ ".out" := ne_append_out id
  refine ⟨?_, ?_, ?_⟩
  · intro r s hrun hdump hside
    constructor <;>
      simp [processIdentifier, get_config, FS.get, FS.set, hfile, hdec, hcons,
            change_state, hplan, hmem1, hmem2, _move_to_state, runConsumerAndWrite,
            hrun, hdump, write_output, hside, dictGet_set_self,
            dictGet_set_ne _ _ _ _ hne]
  · intro r s old hrun hdump hside
    constructor <;>
      simp [processIdentifier, get_config, FS.get, FS.set, hfile, hdec, hcons,
            change_state, hplan, hmem1, hmem2, _move_to_state, runConsumerAndWrite,
            hrun, hdump, write_output, hside, dictGet_set_self,
            dictGet_set_ne _ _ _ _ hne]
  · intro hrun
    constructor <;>
      simp [processIdentifier, get_config, FS.get, FS.set, hfile, hdec, hcons,
            change_state, hplan, hmem1, hmem2, _move_to_state, runConsumerAndWrite,
            hrun, dictGet_set_self, dictGet_set_ne _ _ _ _ hne]

/-- A concrete environment whose consumer for tag R returns the string result
hello and whose consumer for tag N returns None. -/
def c7Env : Env :=
  { decode := fun s =>
      if s = "bodyR" then DecodeOutcome.value ⟨"R"⟩
      else if s = "bodyN" then DecodeOutcome.value ⟨"N"⟩
      else DecodeOutcome.null,
    config_consumers :=
      [("R", fun _ _ => HandlerOutcome.ok (some "hello")),
       ("N", fun _ _ => HandlerOutcome.ok none)],
    jsonDumps := fun s => Except.ok s }

/-- A two-job adapter state for the C7 witness. -/
def c7State : AdapterState :=
  { identifier_states := [("r.yaml", ConfigState.planned), ("n.yaml", ConfigState.planned)],
    fs := { planned := [("r.yaml", "bodyR"), ("n.yaml", "bodyN")], active := [],
            completed := [] } }

/-- Witness for C7: the result-returning consumer produces a sidecar holding
the serialized result; the None-returning consumer produces none. -/
theorem c7_witness :
    ((processIdentifier c7Env false c7State "r.yaml").2.2 = none ∧
     dictGet (processIdentifier c7Env false c7State "r.yaml").2.1.fs.completed
       ("r.yaml" ++ ".out") = some "hello") ∧
    ((processIdentifier c7Env false c7State "n.yaml").2.2 = none ∧
     dictGet (processIdentifier c7Env false c7State "n.yaml").2.1.fs.completed
       ("n.yaml" ++ ".out") = dictGet c7State.fs.completed ("n.yaml" ++ ".out")) :=
  ⟨(c7_output_sidecar c7Env false c7State "r.yaml" "bodyR" ⟨"R"⟩
      (fun _ _ => HandlerOutcome.ok (some "hello")) rfl rfl rfl rfl).1
      "hello" "hello" rfl rfl rfl,
   (c7_output_sidecar c7Env false c7State "n.yaml" "bodyN" ⟨"N"⟩
      (fun _ _ => HandlerOutcome.ok none) rfl rfl rfl rfl).2.2 rfl⟩

/-- A decode collaborator producing, per file contents, a non-TypeError parse
exception (as yaml.safe_load does on malformed yaml), a TypeError, or None. -/
def c4Env : Env :=
  { decode := fun s =>
      if s = "badsyntax" then DecodeOutcome.parseError
      else if s = "badtype" then DecodeOutcome.typeError
      else DecodeOutcome.null,
    config_consumers := [],
    jsonDumps := fun s => Except.ok s }

/-- Two planned jobs: one whose body raises a parse exception on decode, one
whose body raises a TypeError on decode. -/
def c4State : AdapterState :=
  { identifier_states := [("bad.yaml", ConfigState.planned),
                          ("mistyped.yaml", ConfigState.planned)],
    fs := { planned := [("bad.yaml", "badsyntax"), ("mistyped.yaml", "badtype")],
            active := [], completed := [] } }

/-- Counterexample to C4: on a job document whose decode raises a
non-TypeError exception (the behaviour of yaml.safe_load on malformed yaml),
`get_config` does not catch the failure and return None; the exception
propagates out of `get_config` and out of the loop body, so the engine does
crash on such a document instead of skipping it. -/
theorem c4_counterexample :
    get_config c4Env.decode c4State "bad.yaml" =
      ([], Except.error (AdapterError.decodeException "bad.yaml")) ∧
    processIdentifier c4Env false c4State "bad.yaml" =
      ([], c4State, some (EngineError.adapter (AdapterError.decodeException "bad.yaml"))) := by
  constructor <;> rfl

/-- C4 amended: `get_config` catches only decode failures that are TypeErrors,
reporting them and returning None, after which the loop body leaves the job
untouched in planned; any other decode exception propagates out of
`get_config` and aborts the loop body with the adapter state unchanged. -/
theorem c4_decode_error_handling
    (decode : String → DecodeOutcome) (env : Env) (debug : Bool) (st : AdapterState)
    (id contents : String)
    (hfile : dictGet st.fs.planned id = some contents) :
    (decode contents = DecodeOutcome.typeError →
      get_config decode st id = ([Event.printedConfigIssue id], Except.ok none)) ∧
    (env.decode contents = DecodeOutcome.typeError →
      processIdentifier env debug st id =
        ([Event.printedConfigIssue id, Event.configLoaded id, Event.unregisteredConfig id],
         st, none)) ∧
    (decode contents = DecodeOutcome.parseError →
      get_config decode st id = ([], Except.error (AdapterError.decodeException id))) ∧
    (env.decode contents = DecodeOutcome.parseError →
      processIdentifier env debug st id =
        ([], st, some (EngineError.adapter (AdapterError.decodeException id)))) := by
  refine ⟨?_, ?_, ?_, ?_⟩ <;> intro hdec <;>
    simp [processIdentifier, get_config, FS.get, hfile, hdec]

/-- Witness for the amended C4 at the concrete decode outcomes. -/
theorem c4_witness :
    get_config c4Env.decode c4State "mistyped.yaml" =
      ([Event.printedConfigIssue "mistyped.yaml"], Except.ok none) ∧
    processIdentifier c4Env true c4State "mistyped.yaml" =
      ([Event.printedConfigIssue "mistyped.yaml", Event.configLoaded "mistyped.yaml",
        Event.unregisteredConfig "mistyped.yaml"], c4State, none) ∧
    get_config c4Env.decode c4State "bad.yaml" =
      ([], Except.error (AdapterError.decodeException "bad.yaml")) ∧
    processIdentifier c4Env true c4State "bad.yaml" =
      ([], c4State, some (EngineError.adapter (AdapterError.decodeException "bad.yaml"))) :=
  ⟨(c4_decode_error_handling c4Env.decode c4Env true c4State "mistyped.yaml" "badtype"
      rfl).1 rfl,
   (c4_decode_error_handling c4Env.decode c4Env true c4State "mistyped.yaml" "badtype"
      rfl).2.1 rfl,
   (c4_decode_error_handling c4Env.decode c4Env true c4State "bad.yaml" "badsyntax"
      rfl).2.2.1 rfl,
   (c4_decode_error_handling c4Env.decode c4Env true c4State "bad.yaml" "badsyntax"
      rfl).2.2.2 rfl⟩

/-- One active job whose backing file sits in the active directory next to an
output sidecar file. -/
def c5State : AdapterState :=
  { identifier_states := [("a.yaml", ConfigState.active)],
    fs := { planned := [], active := [("a.yaml", "body"), ("a.yaml.out", "res")],
            completed := [] } }

/-- Counterexample to C5: an active-to-completed transition relocates only the
backing file; a sidecar file present in the active directory is not relocated
into the completed directory — it stays behind in the active directory. -/
theorem c5_counterexample :
    change_state _move_to_state c5State "a.yaml" ConfigState.completed true =
      ({ identifier_states := [("a.yaml", ConfigState.completed)],
         fs := { planned := [], active := [("a.yaml.out", "res")],
                 completed := [("a.yaml", "body")] } }, none) ∧
    dictGet (change_state _move_to_state c5State "a.yaml"
        ConfigState.completed true).1.fs.completed "a.yaml.out" = none ∧
    dictGet (change_state _move_to_state c5State "a.yaml"
        ConfigState.completed true).1.fs.active "a.yaml.out" = some "res" := by
  refine ⟨?_, ?_, ?_⟩ <;> rfl

/-- C5 amended: in the local filesystem adapter an active-to-completed
transition relocates exactly the backing file of the identifier from the
active directory to the completed directory, leaving every other file
(including any sidecar) where it is; if the backing file is missing from the
active directory the transition fails with an error and changes nothing. -/
theorem c5_move_to_completed
    (st : AdapterState) (id : String)
    (hact : dictGet st.identifier_states id = some ConfigState.active) :
    (∀ contents, dictGet st.fs.active id = some contents →
      change_state _move_to_state st id ConfigState.completed true =
        ({ identifier_states := dictSet st.identifier_states id ConfigState.completed,
           fs := { planned := st.fs.planned, active := dictRemove st.fs.active id,
                   completed := dictSet st.fs.completed id contents } }, none)) ∧
    (dictGet st.fs.active id = none →
      change_state _move_to_state st id ConfigState.completed true =
        (st, some (AdapterError.fileNotFound id))) := by
  have hmem : (ConfigState.active, ConfigState.completed) ∈ _allowed_state_changes := by decide
  constructor
  · intro contents hfile
    simp [change_state, hact, hmem, _move_to_state, FS.get, FS.set, hfile]
  · intro hfile
    simp [change_state, hact, hmem, _move_to_state, FS.get, FS.set, hfile]

/-- An active job whose backing file has vanished from the active directory. -/
def c5StateGone : AdapterState :=
  { identifier_states := [("a.yaml", ConfigState.active)],
    fs := { planned := [], active := [("a.yaml.out", "res")], completed := [] } }

/-- Witness for the amended C5: the successful relocation and the surfaced
error when the backing file is missing. -/
theorem c5_witness :
    change_state _move_to_state c5State "a.yaml" ConfigState.completed true =
      ({ identifier_states := dictSet c5State.identifier_states "a.yaml" ConfigState.completed,
         fs := { planned := c5State.fs.planned,
                 active := dictRemove c5State.fs.active "a.yaml",
                 completed := dictSet c5State.fs.completed "a.yaml" "body" } }, none) ∧
    change_state _move_to_state c5StateGone "a.yaml" ConfigState.completed true =
      (c5StateGone, some (AdapterError.fileNotFound "a.yaml")) :=
  ⟨(c5_move_to_completed c5State "a.yaml" rfl).1 "body" rfl,
   (c5_move_to_completed c5StateGone "a.yaml" rfl).2 rfl⟩

instance {α : Type} (l : List (String × α)) : Decidable (WFDict l) :=
  inferInstanceAs (Decidable ((l.map Prod.fst).Nodup))

theorem registerScan_ok (files : List (String × String)) :
    ∀ (t : List (String × ConfigState)) (s : ConfigState),
      ∃ t', registerScan t files s = Except.ok t' := by
  induction files with
  | nil => intro t s; exact ⟨t, rfl⟩
  | cons f rest ih =>
      intro t s
      by_cases hy : isYamlFile f.1 = true
      · by_cases hn : (dictGet t f.1).isNone = true
        · obtain ⟨t', h⟩ := ih (dictSet t f.1 s) s
          exact ⟨t', by simp [registerScan, hy, hn, _add_identifier, h]⟩
        · obtain ⟨t', h⟩ := ih t s
          exact ⟨t', by simp [registerScan, hy, hn, h]⟩
      · obtain ⟨t', h⟩ := ih t s
        exact ⟨t', by simp [registerScan, hy, h]⟩

theorem registerScan_preserves (files : List (String × String)) :
    ∀ (t t' : List (String × ConfigState)) (s : ConfigState) (id : String) (v : ConfigState),
      dictGet t id = some v → registerScan t files s = Except.ok t' →
      dictGet t' id = some v := by
  induction files with
  | nil =>
      intro t t' s id v hget hscan
      simp [registerScan] at hscan
      subst hscan
      exact hget
  | cons f rest ih =>
      intro t t' s id v hget hscan
      by_cases hy : isYamlFile f.1 = true
      · by_cases hn : (dictGet t f.1).isNone = true
        · simp [registerScan, hy, hn, _add_identifier] at hscan
          have hne : f.1 ≠ id := by
            intro he
            rw [he, hget] at hn
            simp at hn
          have hget2 : dictGet (dictSet t f.1 s) id = some v := by
            rw [dictGet_set_ne t f.1 id s hne]
            exact hget
          exact ih _ _ _ _ _ hget2 hscan
        · simp [registerScan, hy, hn] at hscan
          exact ih _ _ _ _ _ hget hscan
      · simp [registerScan, hy] at hscan
        exact ih _ _ _ _ _ hget hscan

theorem registerScan_registers (files : List (String × String)) :
    ∀ (t t' : List (String × ConfigState)) (s : ConfigState) (n : String),
      isYamlFile n = true → n ∈ files.map Prod.fst → dictGet t n = none →
      registerScan t files s = Except.ok t' → dictGet t' n = some s := by
  induction files with
  | nil =>
      intro t t' s n _ hmem _ _
      simp at hmem
  | cons f rest ih =>
      intro t t' s n hy hmem hnone hscan
      by_cases he : f.1 = n
      · subst he
        simp [registerScan, hy, hnone, _add_identifier] at hscan
        exact registerScan_preserves rest _ _ _ _ _ (dictGet_set_self t f.1 s) hscan
      · have hmem2 : n ∈ rest.map Prod.fst := by
          simp [List.map] at hmem
          rcases hmem with h | h
          · exact absurd h.symm he
          · simpa using h
        by_cases hy2 : isYamlFile f.1 = true
        · by_cases hn2 : (dictGet t f.1).isNone = true
          · simp [registerScan, hy2, hn2, _add_identifier] at hscan
            have hnone2 : dictGet (dictSet t f.1 s) n = none := by
              rw [dictGet_set_ne t f.1 n s he]
              exact hnone
            exact ih _ _ _ _ hy hmem2 hnone2 hscan
          · simp [registerScan, hy2, hn2] at hscan
            exact ih _ _ _ _ hy hmem2 hnone hscan
        · simp [registerScan, hy2] at hscan
          exact ih _ _ _ _ hy hmem2 hnone hscan

theorem registerScan_wf (files : List (String × String)) :
    ∀ (t t' : List (String × ConfigState)) (s : ConfigState),
      WFDict t → registerScan t files s = Except.ok t' → WFDict t' := by
  induction files with
  | nil =>
      intro t t' s hwf hscan
      simp [registerScan] at hscan
      subst hscan
      exact hwf
  | cons f rest ih =>
      intro t t' s hwf hscan
      by_cases hy : isYamlFile f.1 = true
      · by_cases hn : (dictGet t f.1).isNone = true
        · simp [registerScan, hy, hn, _add_identifier] at hscan
          exact ih _ _ _ (wf_dictSet f.1 s hwf) hscan
        · simp [registerScan, hy, hn] at hscan
          exact ih _ _ _ hwf hscan
      · simp [registerScan, hy] at hscan
        exact ih _ _ _ hwf hscan

theorem mem_filter_map_iff {t : List (String × ConfigState)} (hwf : WFDict t)
    (id : String) (s : ConfigState) :
    id ∈ (t.filter (fun p => p.2 = s)).map Prod.fst ↔ dictGet t id = some s := by
  constructor
  · intro h
    rcases List.mem_map.mp h with ⟨p, hp, hfst⟩
    have hmem := List.mem_filter.mp hp
    have hps : p.2 = s := by simpa using hmem.2
    have : (id, s) ∈ t := by
      have : p = (id, s) := by
        cases p
        simp at hfst hps
        simp [hfst, hps]
      exact this ▸ hmem.1
    exact mem_dictGet hwf this
  · intro h
    have hmem : (id, s) ∈ t := dictGet_mem h
    exact List.mem_map.mpr ⟨(id, s), List.mem_filter.mpr ⟨hmem, by simp⟩, rfl⟩

/-- An identifier already tracked at planned whose name also appears as a file
in the active directory. -/
def c6State : AdapterState :=
  { identifier_states := [("a.yaml", ConfigState.planned)],
    fs := { planned := [], active := [("a.yaml", "body")], completed := [] } }

/-- Counterexample to C6: scanning the active directory finds a valid entry
whose identifier is already tracked at a different claimed state (planned),
yet `poll_directory` does not fail with a duplicate-identifier condition: it
succeeds, skips the entry (first seen wins) and returns the identifiers
tracked at active (none). -/
theorem c6_counterexample :
    dictGet c6State.identifier_states "a.yaml" = some ConfigState.planned ∧
    isYamlFile "a.yaml" = true ∧
    ("a.yaml", "body") ∈ c6State.fs.active ∧
    poll_directory c6State ConfigState.active = Except.ok (c6State, []) := by
  refine ⟨rfl, rfl, by simp [c6State], rfl⟩

/-- C6 amended: for every state s, `poll_directory` never raises the
duplicate-identifier condition — it succeeds on every input; it leaves the
directories untouched, registers every newly seen identifier with the
recognized extension at s, keeps every already-tracked identifier at its
first-seen state (even when it collides at a different claimed state), and
returns exactly the identifiers tracked at state s afterwards. -/
theorem c6_poll_directory (st : AdapterState) (s : ConfigState)
    (hwf : WFDict st.identifier_states) :
    ∃ st' ids, poll_directory st s = Except.ok (st', ids) ∧
      st'.fs = st.fs ∧
      (∀ id v, dictGet st.identifier_states id = some v →
        dictGet st'.identifier_states id = some v) ∧
      (∀ n, isYamlFile n = true → n ∈ (st.fs.get s).map Prod.fst →
        dictGet st.identifier_states n = none →
        dictGet st'.identifier_states n = some s) ∧
      (∀ id, id ∈ ids ↔ dictGet st'.identifier_states id = some s) := by
  obtain ⟨t', hscan⟩ := registerScan_ok (st.fs.get s) st.identifier_states s
  refine ⟨{ st with identifier_states := t' },
          (t'.filter (fun p => p.2 = s)).map Prod.fst, ?_, rfl, ?_, ?_, ?_⟩
  · simp [poll_directory, hscan]
  · intro id v hget
    exact registerScan_preserves (st.fs.get s) _ _ _ _ _ hget hscan
  · intro n hy hmem hnone
    exact registerScan_registers (st.fs.get s) _ _ _ _ hy hmem hnone hscan
  · intro id
    exact mem_filter_map_iff (registerScan_wf (st.fs.get s) _ _ _ hwf hscan) id s

/-- A planned directory holding one already-tracked job, one new job and one
file without the recognized extension. -/
def c6WitState : AdapterState :=
  { identifier_states := [("done.yaml", ConfigState.planned)],
    fs := { planned := [("done.yaml", "x"), ("new.yaml", "y"), ("note.txt", "z")],
            active := [], completed := [] } }

/-- Witness for the amended C6 at a concrete planned directory. -/
theorem c6_witness :
    ∃ st' ids, poll_directory c6WitState ConfigState.planned = Except.ok (st', ids) ∧
      st'.fs = c6WitState.fs ∧
      (∀ id v, dictGet c6WitState.identifier_states id = some v →
        dictGet st'.identifier_states id = some v) ∧
      (∀ n, isYamlFile n = true → n ∈ (c6WitState.fs.get ConfigState.planned).map Prod.fst →
        dictGet c6WitState.identifier_states n = none →
        dictGet st'.identifier_states n = some ConfigState.planned) ∧
      (∀ id, id ∈ ids ↔ dictGet st'.identifier_states id = some ConfigState.planned) :=
  c6_poll_directory c6WitState ConfigState.planned (by decide)

/-- C9: a polled planned identifier whose decoded config is None or whose
runtime type has no registered consumer only triggers the config-loaded and
unregistered-config hooks: the loop body returns with the adapter state
exactly unchanged (no transition, no output write, no exception), and from any
state still tracking the identifier at planned (in particular the unchanged
one, again and again) the next poll of the planned state returns it, still
planned. -/
theorem c9_unregistered_config_left_untouched
    (env : Env) (debug : Bool) (st : AdapterState) (id contents : String)
    (hplan : dictGet st.identifier_states id = some ConfigState.planned)
    (hfile : dictGet st.fs.planned id = some contents)
    (hA : env.decode contents = DecodeOutcome.null ∨
          ∃ c, env.decode contents = DecodeOutcome.value c ∧
               dictGet env.config_consumers c.tag = none) :
    processIdentifier env debug st id =
      ([Event.configLoaded id, Event.unregisteredConfig id], st, none) ∧
    dictGet (processIdentifier env debug st id).2.1.identifier_states id =
      some ConfigState.planned ∧
    (∀ st2 : AdapterState, WFDict st2.identifier_states →
      dictGet st2.identifier_states id = some ConfigState.planned →
      ∀ st' ids, pollPlanned st2 = Except.ok (st', ids) →
        id ∈ ids ∧ dictGet st'.identifier_states id = some ConfigState.planned) := by
  refine ⟨?_, ?_, ?_⟩
  · rcases hA with hdec | ⟨c, hdec, hcons⟩
    · simp [processIdentifier, get_config, FS.get, hfile, hdec]
    · simp [processIdentifier, get_config, FS.get, hfile, hdec, hcons]
  · rcases hA with hdec | ⟨c, hdec, hcons⟩
    · simp [processIdentifier, get_config, FS.get, hfile, hdec, hplan]
    · simp [processIdentifier, get_config, FS.get, hfile, hdec, hcons, hplan]
  · intro st2 hwf hplan2 st' ids hpoll
    simp only [pollPlanned, poll_directory] at hpoll
    rcases hreg : registerScan st2.identifier_states (st2.fs.get ConfigState.planned)
        ConfigState.planned with e | t'
    · rw [hreg] at hpoll
      simp at hpoll
    · rw [hreg] at hpoll
      simp only [Except.ok.injEq, Prod.mk.injEq] at hpoll
      obtain ⟨hst', hids⟩ := hpoll
      have hpres := registerScan_preserves _ _ _ _ _ _ hplan2 hreg
      have hwf' := registerScan_wf _ _ _ _ hwf hreg
      constructor
      · rw [← hids]
        exact (mem_filter_map_iff hwf' id ConfigState.planned).mpr hpres
      · rw [← hst']
        exact hpres

/-- A decode collaborator with a None-decoding document and a document decoding
to a type that has no registered consumer. -/
def c9Env : Env :=
  { decode := fun s =>
      if s = "bodyU" then DecodeOutcome.value ⟨"U"⟩ else DecodeOutcome.null,
    config_consumers := [],
    jsonDumps := fun s => Except.ok s }

/-- Two planned jobs: one decoding to None, one decoding to an unregistered
type. -/
def c9State : AdapterState :=
  { identifier_states := [("n.yaml", ConfigState.planned), ("u.yaml", ConfigState.planned)],
    fs := { planned := [("n.yaml", "nulldoc"), ("u.yaml", "bodyU")], active := [],
            completed := [] } }

/-- Witness for C9 at the two concrete jobs, with a concrete subsequent poll. -/
theorem c9_witness :
    processIdentifier c9Env false c9State "n.yaml" =
      ([Event.configLoaded "n.yaml", Event.unregisteredConfig "n.yaml"], c9State, none) ∧
    dictGet (processIdentifier c9Env false c9State "n.yaml").2.1.identifier_states
      "n.yaml" = some ConfigState.planned ∧
    ("n.yaml" ∈ ["n.yaml", "u.yaml"] ∧
      dictGet c9State.identifier_states "n.yaml" = some ConfigState.planned) ∧
    processIdentifier c9Env false c9State "u.yaml" =
      ([Event.configLoaded "u.yaml", Event.unregisteredConfig "u.yaml"], c9State, none) :=
  ⟨(c9_unregistered_config_left_untouched c9Env false c9State "n.yaml" "nulldoc"
      rfl rfl (Or.inl rfl)).1,
   (c9_unregistered_config_left_untouched c9Env false c9State "n.yaml" "nulldoc"
      rfl rfl (Or.inl rfl)).2.1,
   (c9_unregistered_config_left_untouched c9Env false c9State "n.yaml" "nulldoc"
      rfl rfl (Or.inl rfl)).2.2 c9State (by decide) rfl c9State ["n.yaml", "u.yaml"] rfl,
   (c9_unregistered_config_left_untouched c9Env false c9State "u.yaml" "bodyU"
      rfl rfl (Or.inr ⟨⟨"U"⟩, rfl, rfl⟩)).1⟩

theorem change_state_planned_success {st st' : AdapterState} {x : String}
    (h : change_state _move_to_state st x ConfigState.planned false = (st', none)) :
    dictGet st'.identifier_states x = some ConfigState.planned ∧
    ∀ id, dictGet st.identifier_states id = some ConfigState.planned →
      dictGet st'.identifier_states id = some ConfigState.planned := by
  rcases hget : dictGet st.identifier_states x with _ | old
  · simp [change_state, hget] at h
  · rcases hmove : _move_to_state x old ConfigState.planned st.fs with e | fs'
    · simp [change_state, hget, hmove] at h
    · simp [change_state, hget, hmove] at h
      subst h
      constructor
      · exact dictGet_set_self st.identifier_states x ConfigState.planned
      · intro id hid
        by_cases hx : x = id
        · rw [← hx]
          exact dictGet_set_self st.identifier_states x ConfigState.planned
        · rw [dictGet_set_ne st.identifier_states x id ConfigState.planned hx]
          exact hid

theorem resumeLoop_preserves_planned (ids : List String) :
    ∀ (st st' : AdapterState), resumeLoop st ids = (st', none) →
      ∀ id, dictGet st.identifier_states id = some ConfigState.planned →
        dictGet st'.identifier_states id = some ConfigState.planned := by
  induction ids with
  | nil =>
      intro st st' h id hid
      simp [resumeLoop] at h
      rw [← h]
      exact hid
  | cons x rest ih =>
      intro st st' h id hid
      simp only [resumeLoop] at h
      rcases hcs : change_state _move_to_state st x ConfigState.planned false with ⟨st1, err⟩
      rw [hcs] at h
      cases err with
      | some e => simp at h
      | none =>
          simp at h
          exact ih st1 st' h id ((change_state_planned_success hcs).2 id hid)

theorem resumeLoop_all_planned (ids : List String) :
    ∀ (st st' : AdapterState), resumeLoop st ids = (st', none) →
      ∀ id ∈ ids, dictGet st'.identifier_states id = some ConfigState.planned := by
  induction ids with
  | nil =>
      intro st st' _ id hid
      simp at hid
  | cons x rest ih =>
      intro st st' h id hid
      simp only [resumeLoop] at h
      rcases hcs : change_state _move_to_state st x ConfigState.planned false with ⟨st1, err⟩
      rw [hcs] at h
      cases err with
      | some e => simp at h
      | none =>
          simp at h
          rcases List.mem_cons.mp hid with h1 | h1
          · subst h1
            exact resumeLoop_preserves_planned rest st1 st' h id
              (change_state_planned_success hcs).1
          · exact ih st1 st' h id h1

/-- C8: when the recovery step succeeds, every identifier returned by the poll
of the active directory ends up tracked at planned (its transition bypassed
validation: active to planned is not in the allowed set), and a run with
`resume_active_configs=true` enters its main loop — whose first action is the
first poll of the planned directory — only on the recovered state. -/
theorem c8_resume_moves_active_back_to_planned
    (st st1 st2 : AdapterState) (ids : List String)
    (hpoll : poll_directory st ConfigState.active = Except.ok (st1, ids))
    (hres : _resume_active_configs st = (st2, none)) :
    (∀ id ∈ ids, dictGet st2.identifier_states id = some ConfigState.planned) ∧
    (ConfigState.active, ConfigState.planned) ∉ _allowed_state_changes ∧
    (∀ env debug timeout minInterval times,
      run env debug true timeout minInterval st times =
        runLoop env debug timeout minInterval st2 0 times) := by
  have hres2 : resumeLoop st1 ids = (st2, none) := by
    unfold _resume_active_configs at hres
    rw [hpoll] at hres
    exact hres
  refine ⟨?_, by decide, ?_⟩
  · intro id hid
    exact resumeLoop_all_planned ids st1 st2 hres2 id hid
  · intro env debug timeout minInterval times
    simp [run, hres]

/-- A crashed run: a fresh adapter whose active directory still holds a job. -/
def c8State : AdapterState :=
  { identifier_states := [],
    fs := { planned := [], active := [("j.yaml", "body")], completed := [] } }

/-- The state after recovery: the job is tracked planned and its file is back
in the planned directory. -/
def c8StateAfter : AdapterState :=
  { identifier_states := [("j.yaml", ConfigState.planned)],
    fs := { planned := [("j.yaml", "body")], active := [], completed := [] } }

/-- Witness for C8 at the concrete crashed state. -/
theorem c8_witness :
    dictGet c8StateAfter.identifier_states "j.yaml" = some ConfigState.planned ∧
    (ConfigState.active, ConfigState.planned) ∉ _allowed_state_changes ∧
    run c2Env false true none 10 c8State [] =
      runLoop c2Env false none 10 c8StateAfter 0 [] :=
  ⟨(c8_resume_moves_active_back_to_planned c8State
      { identifier_states := [("j.yaml", ConfigState.active)], fs := c8State.fs }
      c8StateAfter ["j.yaml"] rfl rfl).1 "j.yaml" (by simp),
   (c8_resume_moves_active_back_to_planned c8State
      { identifier_states := [("j.yaml", ConfigState.active)], fs := c8State.fs }
      c8StateAfter ["j.yaml"] rfl rfl).2.1,
   (c8_resume_moves_active_back_to_planned c8State
      { identifier_states := [("j.yaml", ConfigState.active)], fs := c8State.fs }
      c8StateAfter ["j.yaml"] rfl rfl).2.2 c2Env false none 10 []⟩

theorem checkEnd_timedOut (timeout : Option Int) (mpi lastNE : Int) (t : IterInput) :
    (checkEnd timeout mpi lastNE t).2 = IterResult.timedOut ↔
      ∃ T, timeout = some T ∧ T ≠ 0 ∧ t.tCheck - lastNE > T := by
  unfold checkEnd timeoutFires
  rcases timeout with _ | T
  · by_cases hd : mpi - (t.tPace - t.tPoll) > 0 <;> simp [hd]
  · by_cases hT : T = 0
    · by_cases hd : mpi - (t.tPace - t.tPoll) > 0 <;> simp [hT, hd]
    · by_cases hgt : t.tCheck - lastNE > T
      · simp [hT, hgt]
      · by_cases hd : mpi - (t.tPace - t.tPoll) > 0 <;> simp [hT, hgt, hd]

/-- An environment whose single consumer returns None instantly (all elapsed
time of the iteration is encoded in the supplied clock readings). -/
def c3Env : Env :=
  { decode := fun s => if s = "body" then DecodeOutcome.value ⟨"T"⟩ else DecodeOutcome.null,
    config_consumers := [("T", fun _ _ => HandlerOutcome.ok none)],
    jsonDumps := fun s => Except.ok s }

/-- One planned job for the C3 counterexample. -/
def c3State : AdapterState :=
  { identifier_states := [("a.yaml", ConfigState.planned)],
    fs := { planned := [("a.yaml", "body")], active := [], completed := [] } }

/-- Counterexample to C3: an iteration whose poll at time 100 is non-empty and
whose processing runs until time 110 — so the only elapsed time is processing
time of that same non-empty iteration — terminates the loop through the
timeout branch with timeout 5, because the baseline is taken at poll time,
before processing; processing time does count toward the timeout. -/
theorem c3_counterexample :
    (runIteration c3Env false (some 5) 10 c3State 0 ⟨100, 110, 110⟩).polled = ["a.yaml"] ∧
    (runIteration c3Env false (some 5) 10 c3State 0 ⟨100, 110, 110⟩).result =
      IterResult.timedOut := by
  constructor <;> rfl

/-- C3 amended: an iteration that raises no exception terminates through the
timeout branch exactly when a non-zero timeout T is configured and the check
time minus the iteration baseline exceeds T, where the baseline is the poll
time of this iteration if its poll was non-empty and the previous baseline
otherwise. Hence what counts toward the timeout is the time elapsed since the
moment of the most recent non-empty poll — including the processing time of
the jobs of that iteration, so a handler running longer than T does cause
termination at the end of its own iteration. -/
theorem c3_timeout_accounting
    (env : Env) (debug : Bool) (timeout : Option Int) (minInterval : Int)
    (st : AdapterState) (lastNonempty : Int) (t : IterInput)
    (hnoraise : ∀ e, (runIteration env debug timeout minInterval st lastNonempty t).result ≠
      IterResult.raised e) :
    ((runIteration env debug timeout minInterval st lastNonempty t).polled ≠ [] →
      (runIteration env debug timeout minInterval st lastNonempty t).lastNonempty =
        t.tPoll) ∧
    ((runIteration env debug timeout minInterval st lastNonempty t).polled = [] →
      (runIteration env debug timeout minInterval st lastNonempty t).lastNonempty =
        lastNonempty) ∧
    ((runIteration env debug timeout minInterval st lastNonempty t).result =
        IterResult.timedOut ↔
      ∃ T, timeout = some T ∧ T ≠ 0 ∧
        t.tCheck -
          (runIteration env debug timeout minInterval st lastNonempty t).lastNonempty
            > T) := by
  rcases hpoll : pollPlanned st with e | p
  · exfalso
    exact hnoraise (EngineError.adapter e) (by simp [runIteration, hpoll])
  · rcases p with ⟨st1, ids⟩
    by_cases hids : ids.isEmpty = true
    · have ho : runIteration env debug timeout minInterval st lastNonempty t =
        ⟨Event.noConfigsFound :: (checkEnd timeout minInterval lastNonempty t).1, st1,
         lastNonempty, ids, (checkEnd timeout minInterval lastNonempty t).2⟩ := by
        simp [runIteration, hpoll, hids]
      rw [ho]
      refine ⟨?_, ?_, ?_⟩
      · intro hne
        exact absurd (List.isEmpty_iff.mp hids) hne
      · intro _
        rfl
      · exact checkEnd_timedOut timeout minInterval lastNonempty t
    · rcases herr : (processList env debug st1 ids).2.2 with _ | e
      · have ho : runIteration env debug timeout minInterval st lastNonempty t =
          ⟨(processList env debug st1 ids).1 ++ (checkEnd timeout minInterval t.tPoll t).1,
           (processList env debug st1 ids).2.1, t.tPoll, ids,
           (checkEnd timeout minInterval t.tPoll t).2⟩ := by
          simp [runIteration, hpoll, hids, herr]
        rw [ho]
        refine ⟨?_, ?_, ?_⟩
        · intro _
          rfl
        · intro h0
          simp only [] at h0
          rw [h0] at hids
          simp at hids
        · exact checkEnd_timedOut timeout minInterval t.tPoll t
      · exfalso
        exact hnoraise e (by simp [runIteration, hpoll, hids, herr])

/-- Witness for the amended C3: a non-empty iteration inside the timeout
(no termination) at a concrete input. -/
theorem c3_witness :
    ((runIteration c3Env false (some 20) 10 c3State 0 ⟨100, 110, 110⟩).polled ≠ [] →
      (runIteration c3Env false (some 20) 10 c3State 0 ⟨100, 110, 110⟩).lastNonempty =
        (100 : Int)) ∧
    ((runIteration c3Env false (some 20) 10 c3State 0 ⟨100, 110, 110⟩).polled = [] →
      (runIteration c3Env false (some 20) 10 c3State 0 ⟨100, 110, 110⟩).lastNonempty =
        (0 : Int)) ∧
    ((runIteration c3Env false (some 20) 10 c3State 0 ⟨100, 110, 110⟩).result =
        IterResult.timedOut ↔
      ∃ T, (some (20 : Int)) = some T ∧ T ≠ 0 ∧
        (110 : Int) -
          (runIteration c3Env false (some 20) 10 c3State 0 ⟨100, 110, 110⟩).lastNonempty
            > T) :=
  c3_timeout_accounting c3Env false (some 20) 10 c3State 0 ⟨100, 110, 110⟩
    (by intro e h; exact absurd h (by rw [show (runIteration c3Env false (some 20) 10
      c3State 0 ⟨100, 110, 110⟩).result = IterResult.continued none from rfl]; simp))

/-- C10: `run` starts its main loop with the last-non-empty-poll baseline set
to the epoch value 0 (see the definition of `run`), not to the start time; so
with a configured non-zero timeout T, a first poll that finds nothing, and a
current wall clock beyond T, the timeout check `time() - 0 > T` already fires
at the end of the first iteration: the run returns through the timeout branch
having fired only the no-configs-found and timeout hooks — in particular it
never reaches the pacing sleep. -/
theorem c10_zero_baseline_first_empty_poll_times_out
    (env : Env) (debug : Bool) (T : Int) (hT : T ≠ 0) (minInterval : Int)
    (st st1 : AdapterState) (t : IterInput) (rest : List IterInput)
    (hpoll : pollPlanned st = Except.ok (st1, []))
    (hclock : t.tCheck > T) :
    run env debug false (some T) minInterval st (t :: rest) =
      RunResult.timedOut [Event.noConfigsFound, Event.timeout] st1 := by
  have hfire : timeoutFires (some T) 0 t.tCheck = true := by
    simp [timeoutFires, hT]
    omega
  have hce : checkEnd (some T) minInterval 0 t = ([Event.timeout], IterResult.timedOut) := by
    simp [checkEnd, hfire]
  have ho : runIteration env debug (some T) minInterval st 0 t =
      ⟨[Event.noConfigsFound, Event.timeout], st1, 0, [], IterResult.timedOut⟩ := by
    simp [runIteration, hpoll, hce]
  simp [run, runLoop, ho]

/-- A fresh adapter with nothing to do. -/
def c10State : AdapterState :=
  { identifier_states := [], fs := { planned := [], active := [], completed := [] } }

/-- Witness for C10: with an epoch-scale wall clock and a 30-unit timeout, an
empty first poll terminates the run at once, with no waiting event. -/
theorem c10_witness :
    run c3Env false false (some 30) 10 c10State [⟨1700000000, 1700000000, 1700000000⟩] =
      RunResult.timedOut [Event.noConfigsFound, Event.timeout] c10State :=
  c10_zero_baseline_first_empty_poll_times_out c3Env false 30 (by decide) 10 c10State
    c10State ⟨1700000000, 1700000000, 1700000000⟩ [] rfl (by decide)
